import Mathlib

/-!
Verification of the `NEODatabase` core of the repository (src/database.py),
as a shallow embedding in Lean 4.

Data model:
* Python floats carrying a possible NaN sentinel are modelled by `PFloat`
  (`nan` or a rational value); IEEE ordering comparisons against `nan` are
  `false` and equality with `nan` is `false`, as in Python.
* `NearEarthObject` carries the immutable fields of `models.NearEarthObject`;
  the mutable `approaches` list is represented separately (see
  `NEODatabase.neoApproaches`) to avoid the object/approach reference cycle.
* `CloseApproach` carries the staging designation `_designation`, the time
  stamp, distance and velocity.  The mutable `.neo` back-reference set by
  linking is represented by `NEODatabase.approachNeo`.
* Python dictionaries built by comprehension (later entries overwrite
  earlier ones) are modelled by `find?` over the reversed insertion list.
* Exceptions are modelled with `Except`: `DBError.attrError` is the
  `AttributeError` raised by `None.approaches.append` in `__init__`,
  `CheckError` covers the failure modes of `_check_filters`
  (`KeyError` for an unknown key, `AttributeError` when `approach.neo`
  is `None`, `TypeError` for an unordered comparison).
-/

/-- Model of a Python float: either the NaN sentinel or a (finite) value. -/
inductive PFloat where
  | nan : PFloat
  | val : ℚ → PFloat
deriving DecidableEq, Repr

/-- IEEE/Python `<=` on floats: any comparison involving NaN is false. -/
def PFloat.fle : PFloat → PFloat → Bool
  | .val a, .val b => decide (a ≤ b)
  | _, _ => false

/-- IEEE/Python `==` on floats: NaN is not equal to anything, itself included. -/
def PFloat.feq : PFloat → PFloat → Bool
  | .val a, .val b => a == b
  | _, _ => false

/-- Model of a Python `datetime`: a day ordinal plus a time-of-day component.
`date` drops the time-of-day, as `datetime.date()` does. -/
structure PyDateTime where
  day : Int
  tsec : Int
deriving DecidableEq, Repr

/-- Python `datetime.date()`: the calendar-day component. -/
def PyDateTime.date (t : PyDateTime) : Int := t.day

/-- Model of `models.NearEarthObject` (immutable fields): primary designation,
optional name (`None` when absent), diameter (possibly NaN) and hazard flag. -/
structure NearEarthObject where
  designation : String
  name : Option String
  diameter : PFloat
  hazardous : Bool
deriving DecidableEq, Repr

/-- Model of `models.CloseApproach` (immutable fields): the staging
designation `._designation`, approach time, distance and velocity. -/
structure CloseApproach where
  _designation : String
  time : PyDateTime
  distance : PFloat
  velocity : PFloat
deriving DecidableEq, Repr

/-- The `NEODatabase` state: the two collections stored by `__init__` as
`self._neos` and `self._approaches`.  The auxiliary dictionaries and the
linking results are pure functions of these two lists, defined below. -/
structure NEODatabase where
  _neos : List NearEarthObject
  _approaches : List CloseApproach
deriving DecidableEq, Repr

/-- The dictionary comprehension `self.pdes_to_neo` mapping `neo.designation`
to `neo` over `self._neos`, followed by `.get`: on key collision the later
entry wins, hence `find?` over the reversed list. -/
def NEODatabase.pdes_to_neo (db : NEODatabase) (d : String) : Option NearEarthObject :=
  db._neos.reverse.find? (fun neo => neo.designation == d)

/-- The dictionary comprehension `self.name_to_neo` mapping `neo.name` to
`neo` over `self._neos`, followed by `.get`.  Note the source comprehension
does NOT exclude objects whose name is `None` or empty. -/
def NEODatabase.name_to_neo (db : NEODatabase) (k : Option String) : Option NearEarthObject :=
  db._neos.reverse.find? (fun neo => neo.name == k)

/-- The dictionary comprehension `self.approach_to_des` mapping each approach
to its `._designation`, followed by `.get` (unused by the query methods). -/
def NEODatabase.approach_to_des (db : NEODatabase) (a : CloseApproach) : Option String :=
  if db._approaches.contains a then some a._designation else none

/-- `NEODatabase.get_neo_by_designation`: `return self.pdes_to_neo.get(designation)`. -/
def NEODatabase.get_neo_by_designation (db : NEODatabase) (d : String) :
    Option NearEarthObject :=
  db.pdes_to_neo d

/-- `NEODatabase.get_neo_by_name`: `return self.name_to_neo.get(name)`.  The
argument is `Option String` because the `None` singleton can be passed. -/
def NEODatabase.get_neo_by_name (db : NEODatabase) (k : Option String) :
    Option NearEarthObject :=
  db.name_to_neo k

/-- Failure of `NEODatabase.__init__`: the `AttributeError` raised by
`neo.approaches.append(approach)` when `neo` is `None`. -/
inductive DBError where
  | attrError : DBError
deriving DecidableEq, Repr

/-- The linking loop of `__init__`:
`for approach in self._approaches: neo = self.get_neo_by_designation(approach._designation); approach.neo = neo; neo.approaches.append(approach)`.
When the lookup returns `None` the append raises `AttributeError`. -/
def linkAll (db : NEODatabase) : List CloseApproach → Except DBError Unit
  | [] => .ok ()
  | a :: rest =>
    match db.get_neo_by_designation a._designation with
    | none => .error .attrError
    | some _ => linkAll db rest

/-- `NEODatabase.__init__(neos, approaches)`: stores both collections, builds
the dictionaries (pure functions above) and runs the linking loop, which
either succeeds or raises `AttributeError`. -/
def mkNEODatabase (neos : List NearEarthObject) (approaches : List CloseApproach) :
    Except DBError NEODatabase :=
  let db : NEODatabase := ⟨neos, approaches⟩
  (linkAll db approaches).map (fun _ => db)

/-- The `.neo` back-reference of an approach after linking: the loop assigns
`approach.neo = self.get_neo_by_designation(approach._designation)`. -/
def NEODatabase.approachNeo (db : NEODatabase) (a : CloseApproach) :
    Option NearEarthObject :=
  db.get_neo_by_designation a._designation

/-- The `.approaches` list of an object after linking: the loop appends each
approach, in input order, to the list of the object the designation lookup
returned, so object `o` accumulates exactly the approaches whose lookup
yields `o`. -/
def NEODatabase.neoApproaches (db : NEODatabase) (o : NearEarthObject) :
    List CloseApproach :=
  db._approaches.foldl
    (fun acc a =>
      if db.get_neo_by_designation a._designation = some o then acc ++ [a] else acc)
    []

/-- `NEODatabase.query(filters)`: with no filters, yield every approach; with
filters, yield an approach iff `all(f(approach) for f in filters)`.  The
generator is modelled as the list of yielded approaches. -/
def NEODatabase.query (db : NEODatabase) (filters : List (CloseApproach → Bool)) :
    List CloseApproach :=
  if filters.isEmpty then db._approaches
  else db._approaches.filter (fun a => filters.all (fun f => f a))

/-- Model of the Python values that flow through `_check_filters`: strings,
the `None` singleton, calendar dates, floats and booleans. -/
inductive PyVal where
  | vstr : String → PyVal
  | vnone : PyVal
  | vdate : Int → PyVal
  | vfloat : PFloat → PyVal
  | vbool : Bool → PyVal
deriving DecidableEq, Repr

/-- The three comparison operators used in the source mapping:
`operator.eq`, `operator.le`, `operator.ge`. -/
inductive Op where
  | opEq : Op
  | opLe : Op
  | opGe : Op
deriving DecidableEq, Repr

/-- Failure modes of `_check_filters`: `KeyError` carrying the unknown key
(the message is "No option to search for %s"), `AttributeError` from
dereferencing `approach.neo` when it is `None`, `TypeError` from an ordering
comparison between incomparable values. -/
inductive CheckError where
  | unknownKey : String → CheckError
  | attrError : CheckError
  | typeError : CheckError
deriving DecidableEq, Repr

/-- View of a Python value as a number, as Python's numeric comparisons do:
floats are themselves, booleans are 0 or 1, everything else is non-numeric. -/
def PyVal.asFloat : PyVal → Option PFloat
  | .vfloat x => some x
  | .vbool b => some (.val (if b then 1 else 0))
  | _ => none

/-- Python `operator.eq` on the modelled values: same-type structural
equality, except that NaN equals nothing and booleans compare numerically
with floats; values of unrelated types are unequal (no exception). -/
def pyEq (v w : PyVal) : Bool :=
  match v, w with
  | .vstr s, .vstr t => s == t
  | .vnone, .vnone => true
  | .vdate d, .vdate e => d == e
  | .vbool b, .vbool c => b == c
  | _, _ =>
    match v.asFloat, w.asFloat with
    | some x, some y => x.feq y
    | _, _ => false

/-- Python `operator.le` on the modelled values: strings compare
lexicographically, dates by day, numerics (floats/booleans) by value with
NaN never satisfying a bound; any other pairing raises `TypeError`. -/
def pyLe (v w : PyVal) : Except CheckError Bool :=
  match v, w with
  | .vstr s, .vstr t => .ok (s == t || decide (s < t))
  | .vdate d, .vdate e => .ok (decide (d ≤ e))
  | _, _ =>
    match v.asFloat, w.asFloat with
    | some x, some y => .ok (x.fle y)
    | _, _ => .error .typeError

/-- Apply `op[1](op[0], filter_expression)`: the mapping value is the first
argument and the caller's threshold the second (`ge(value, threshold)` is
`threshold <= value`). -/
def applyOp (op : Op) (v fe : PyVal) : Except CheckError Bool :=
  match op with
  | .opEq => .ok (pyEq v fe)
  | .opLe => pyLe v fe
  | .opGe => pyLe fe v

/-- View of a Python optional-string attribute (such as `neo.name`) as a
`PyVal`: the string itself, or the `None` singleton when absent. -/
def optStrVal : Option String → PyVal
  | some s => .vstr s
  | none => .vnone

/-- The dict literal `mapping` of `_check_filters`, in source order.  Its
construction reads every extractor eagerly, including `approach.neo.name`,
`approach.neo.diameter` and `approach.neo.hazardous`; it therefore takes the
already-dereferenced linked object `n`. -/
def buildMapping (a : CloseApproach) (n : NearEarthObject) : List (String × PyVal × Op) :=
  [("des", (.vstr a._designation, .opEq)),
   ("date", (.vdate a.time.date, .opEq)),
   ("start_date", (.vdate a.time.date, .opGe)),
   ("end_date", (.vdate a.time.date, .opLe)),
   ("distance_min", (.vfloat a.distance, .opGe)),
   ("distance_max", (.vfloat a.distance, .opLe)),
   ("velocity_max", (.vfloat a.velocity, .opLe)),
   ("velocity_min", (.vfloat a.velocity, .opGe)),
   ("name", (optStrVal n.name, .opEq)),
   ("diameter_min", (.vfloat n.diameter, .opGe)),
   ("diameter_max", (.vfloat n.diameter, .opLe)),
   ("hazardous", (.vbool n.hazardous, .opEq))]

/-- The keys recognized by the mapping of `_check_filters`, in source order. -/
def canonicalKeys : List String :=
  ["des", "date", "start_date", "end_date", "distance_min", "distance_max",
   "velocity_max", "velocity_min", "name", "diameter_min", "diameter_max",
   "hazardous"]

/-- Python `dict.get` on an association list with distinct keys: the first
matching entry, or `none`. -/
def dget {α : Type} : List (String × α) → String → Option α
  | [], _ => none
  | (k, v) :: rest, key => if key == k then some v else dget rest key

/-- The loop of `_check_filters` over `filters.keys()`: for each key, a
missing mapping entry raises `KeyError`; a `None` filter value yields
`True`; otherwise the operator is applied to the mapping value and the
threshold.  The generator is modelled as the list of yielded booleans. -/
def runFilters (mapping : List (String × PyVal × Op)) :
    List (String × Option PyVal) → Except CheckError (List Bool)
  | [] => .ok []
  | (k, fv) :: rest =>
    match dget mapping k with
    | none => .error (.unknownKey k)
    | some (v, op) =>
      match fv with
      | none =>
        match runFilters mapping rest with
        | .ok bs => .ok (true :: bs)
        | .error e => .error e
      | some fe =>
        match applyOp op v fe with
        | .error e => .error e
        | .ok b =>
          match runFilters mapping rest with
          | .ok bs => .ok (b :: bs)
          | .error e => .error e

/-- `NEODatabase._check_filters(approach, filters)`: `aneo` is the
`approach.neo` back-reference.  When it is `None`, building the mapping
dereferences it and raises `AttributeError` before any key is examined;
otherwise the filters loop runs against the eagerly built mapping. -/
def _check_filters (aneo : Option NearEarthObject) (a : CloseApproach)
    (filters : List (String × Option PyVal)) : Except CheckError (List Bool) :=
  match aneo with
  | none => .error .attrError
  | some n => runFilters (buildMapping a n) filters

/-- Sample object used in concrete instantiations. -/
def sampleNeo : NearEarthObject := ⟨"2020AB", some "Halley", .val 5, false⟩

/-- Sample object with an absent (None) name and an unknown (NaN) diameter,
as produced by the loader for a blank name and blank diameter. -/
def namelessNeo : NearEarthObject := ⟨"2020AB", none, .nan, false⟩

/-- Sample object whose name is the empty string. -/
def emptyNameNeo : NearEarthObject := ⟨"2021CD", some "", .val 1, true⟩

/-- Sample approach whose staging designation matches `sampleNeo`. -/
def sampleApproach : CloseApproach := ⟨"2020AB", ⟨0, 0⟩, .val 1, .val 10⟩

/-- Sample approach whose staging designation matches no object. -/
def strayApproach : CloseApproach := ⟨"9999XYZ", ⟨0, 0⟩, .val 1, .val 10⟩

/-- The linking loop fails with `AttributeError` exactly when some approach's
staging designation is absent from the designation index. -/
theorem linkAll_error_iff (db : NEODatabase) (l : List CloseApproach) :
    linkAll db l = .error .attrError ↔
      ∃ a ∈ l, db.get_neo_by_designation a._designation = none := by
  induction l with
  | nil => simp [linkAll]
  | cons a rest ih =>
    cases h : db.get_neo_by_designation a._designation with
    | none => simp [linkAll, h]
    | some n => simp [linkAll, h, ih]

/-- Claim C1 (counterexample): with no objects and one approach whose staging
designation is "9999XYZ", `__init__` does not complete: it raises the
`AttributeError` modelled by `DBError.attrError`, refuting the claim that
construction completes without raising when a designation is unmatched. -/
theorem init_unmatched_designation_raises :
    mkNEODatabase [] [strayApproach] = .error .attrError := rfl

/-- Claim C1 (amended): `NEODatabase.__init__` raises an `AttributeError`
(from `neo.approaches.append` on `None`) exactly when some approach event's
staging designation matches no entry of the designation index; it completes
without raising only when every staging designation resolves. -/
theorem init_error_iff_unmatched (neos : List NearEarthObject)
    (approaches : List CloseApproach) :
    mkNEODatabase neos approaches = .error .attrError ↔
      ∃ a ∈ approaches,
        NEODatabase.get_neo_by_designation ⟨neos, approaches⟩ a._designation = none := by
  rw [← linkAll_error_iff ⟨neos, approaches⟩ approaches]
  unfold mkNEODatabase
  cases h : linkAll ⟨neos, approaches⟩ approaches with
  | error e => cases e; simp [h, Except.map]
  | ok u => simp [h, Except.map]

/-- Claim C3: `query` with an empty predicate collection yields exactly the
original approach collection: every event, in original order, exactly once. -/
theorem query_empty_yields_all (db : NEODatabase) :
    db.query [] = db._approaches := by
  simp [NEODatabase.query]

/-- Claim C2: an approach event is yielded by `query filters` iff it belongs
to the approach collection and every predicate evaluates to true on it, and
the yielded events form a sublist of the collection (collection order). -/
theorem query_conjunction (db : NEODatabase) (filters : List (CloseApproach → Bool)) :
    (∀ a, a ∈ db.query filters ↔
        a ∈ db._approaches ∧ ∀ f ∈ filters, f a = true) ∧
    List.Sublist (db.query filters) db._approaches := by
  cases filters with
  | nil =>
    constructor
    · intro a
      simp [NEODatabase.query]
    · simp only [NEODatabase.query, List.isEmpty_nil, if_true]
      exact List.Sublist.refl _
  | cons p ps =>
    constructor
    · intro a
      simp [NEODatabase.query, List.mem_filter, List.all_eq_true]
    · simp only [NEODatabase.query, List.isEmpty_cons, Bool.false_eq_true, if_false]
      exact List.filter_sublist _

/-- A `find?` over a list returns the designated element when that element
satisfies the predicate and is the only element of the list doing so. -/
theorem find?_eq_some_of_unique {α : Type} {l : List α} {p : α → Bool} {o : α}
    (ho : o ∈ l) (hp : p o = true) (huniq : ∀ x ∈ l, p x = true → x = o) :
    l.find? p = some o := by
  induction l with
  | nil => cases ho
  | cons x xs ih =>
    cases hx : p x with
    | true =>
      have hxo : x = o := huniq x (List.mem_cons_self x xs) hx
      subst hxo
      exact List.find?_cons_of_pos _ hx
    | false =>
      have hox : o ∈ xs := by
        rcases List.mem_cons.mp ho with h | h
        · simp [← h, hp] at hx
        · exact h
      rw [List.find?_cons_of_neg _ (by simp [hx])]
      exact ih hox (fun y hy hpy => huniq y (List.mem_cons_of_mem _ hy) hpy)

/-- When designations are unique, the designation index resolves each
object's designation to that object. -/
theorem pdes_to_neo_self (db : NEODatabase)
    (hdes : (db._neos.map (fun n => n.designation)).Nodup)
    (o : NearEarthObject) (ho : o ∈ db._neos) :
    db.pdes_to_neo o.designation = some o := by
  unfold NEODatabase.pdes_to_neo
  apply find?_eq_some_of_unique (List.mem_reverse.mpr ho) (by simp)
  intro x hx hpx
  have hx' : x ∈ db._neos := List.mem_reverse.mp hx
  have : x.designation = o.designation := by simpa using hpx
  exact List.inj_on_of_nodup_map hdes hx' ho this

/-- A left fold that conditionally appends singletons is the initial
accumulator followed by the filtered list. -/
theorem foldl_if_append_eq_filter {α : Type} (p : α → Prop) [DecidablePred p]
    (l : List α) (init : List α) :
    l.foldl (fun acc a => if p a then acc ++ [a] else acc) init
      = init ++ l.filter (fun a => decide (p a)) := by
  induction l generalizing init with
  | nil => simp
  | cons x xs ih =>
    by_cases hx : p x
    · simp [List.foldl_cons, if_pos hx, ih, List.filter_cons, hx]
    · simp [List.foldl_cons, if_neg hx, ih, List.filter_cons, hx]

/-- Claim C4: when designations are unique and construction succeeds, an
approach whose staging designation matches object `o` gets `o` as its back
reference, and `o`'s approach list is exactly the events sharing its
designation in original input order, containing the approach exactly once. -/
theorem link_matched_designation (neos : List NearEarthObject)
    (approaches : List CloseApproach) (db : NEODatabase) (o : NearEarthObject)
    (a : CloseApproach)
    (hdes : (neos.map (fun n => n.designation)).Nodup)
    (hnd : approaches.Nodup)
    (hok : mkNEODatabase neos approaches = .ok db)
    (ho : o ∈ neos) (ha : a ∈ approaches)
    (hD : a._designation = o.designation) :
    db.approachNeo a = some o ∧
    db.neoApproaches o
      = approaches.filter (fun x => decide (x._designation = o.designation)) ∧
    (db.neoApproaches o).count a = 1 := by
  have hdb : db = ⟨neos, approaches⟩ := by
    have hmk : mkNEODatabase neos approaches
        = Except.map (fun _ : Unit => (⟨neos, approaches⟩ : NEODatabase))
            (linkAll ⟨neos, approaches⟩ approaches) := rfl
    rw [hmk] at hok
    cases h : linkAll ⟨neos, approaches⟩ approaches with
    | error e => rw [h] at hok; simp [Except.map] at hok
    | ok u => rw [h] at hok; simp [Except.map] at hok; exact hok.symm
  subst hdb
  have hlook : ∀ x : CloseApproach,
      NEODatabase.get_neo_by_designation ⟨neos, approaches⟩ x._designation = some o
        ↔ x._designation = o.designation := by
    intro x
    constructor
    · intro h
      have h2 := List.find?_some h
      have h3 : o.designation = x._designation := by simpa using h2
      exact h3.symm
    · intro h
      rw [h]
      exact pdes_to_neo_self ⟨neos, approaches⟩ hdes o ho
  have happ : NEODatabase.neoApproaches ⟨neos, approaches⟩ o
      = approaches.filter (fun x => decide (x._designation = o.designation)) := by
    unfold NEODatabase.neoApproaches
    rw [foldl_if_append_eq_filter
      (fun x : CloseApproach =>
        NEODatabase.get_neo_by_designation ⟨neos, approaches⟩ x._designation = some o)]
    rw [List.nil_append]
    apply List.filter_congr
    intro x hx
    simp [hlook x]
  refine ⟨(hlook a).mpr hD, happ, ?_⟩
  rw [happ]
  apply List.count_eq_one_of_mem (hnd.filter _)
  rw [List.mem_filter]
  exact ⟨ha, by simp [hD]⟩

/-- Claim C4 (witness): instantiation on a one-object, one-approach input. -/
theorem link_matched_designation_witness :
    NEODatabase.approachNeo ⟨[sampleNeo], [sampleApproach]⟩ sampleApproach
      = some sampleNeo ∧
    NEODatabase.neoApproaches ⟨[sampleNeo], [sampleApproach]⟩ sampleNeo
      = List.filter (fun x => decide (x._designation = sampleNeo.designation))
          [sampleApproach] ∧
    (NEODatabase.neoApproaches ⟨[sampleNeo], [sampleApproach]⟩ sampleNeo).count
        sampleApproach = 1 :=
  link_matched_designation [sampleNeo] [sampleApproach]
    ⟨[sampleNeo], [sampleApproach]⟩ sampleNeo sampleApproach
    (by decide) (by decide) rfl (by decide) (by decide) rfl

/-- Claim C6: under unique designations and unique non-empty names, every
input object is returned by `get_neo_by_designation` on its designation,
and by `get_neo_by_name` on its name when that name is non-empty. -/
theorem lookup_roundtrip (db : NEODatabase)
    (hdes : (db._neos.map (fun n => n.designation)).Nodup)
    (hname : ∀ x ∈ db._neos, ∀ y ∈ db._neos,
        x.name = y.name → x.name ≠ none → x.name ≠ some "" → x = y)
    (o : NearEarthObject) (ho : o ∈ db._neos) :
    db.get_neo_by_designation o.designation = some o ∧
    (∀ s : String, o.name = some s → s ≠ "" →
      db.get_neo_by_name (some s) = some o) := by
  refine ⟨pdes_to_neo_self db hdes o ho, ?_⟩
  intro s hs hne
  unfold NEODatabase.get_neo_by_name NEODatabase.name_to_neo
  apply find?_eq_some_of_unique (List.mem_reverse.mpr ho) (by simp [hs])
  intro x hx hpx
  have hx' : x ∈ db._neos := List.mem_reverse.mp hx
  have hxs : x.name = some s := by simpa using hpx
  apply hname x hx' o ho (by rw [hxs, hs]) (by simp [hxs]) (by simp [hxs, hne])

/-- Claim C6 (witness): instantiation on a single named object. -/
theorem lookup_roundtrip_witness :
    NEODatabase.get_neo_by_designation ⟨[sampleNeo], []⟩ sampleNeo.designation
      = some sampleNeo ∧
    NEODatabase.get_neo_by_name ⟨[sampleNeo], []⟩ (some "Halley")
      = some sampleNeo :=
  ⟨(lookup_roundtrip ⟨[sampleNeo], []⟩ (by decide) (by decide) sampleNeo
      (by decide)).1,
   (lookup_roundtrip ⟨[sampleNeo], []⟩ (by decide) (by decide) sampleNeo
      (by decide)).2 "Halley" rfl (by decide)⟩

/-- Claim C5 (code evaluated at the failing input): the name index built by
`__init__` does index absent and empty names, so `get_neo_by_name` returns a
nameless object for the `None` singleton and an empty-named object for the
empty string, contradicting the claim (and the method's own docstring). -/
theorem get_neo_by_name_returns_unnamed :
    (NEODatabase.mk [namelessNeo, emptyNameNeo] []).get_neo_by_name none
      = some namelessNeo ∧
    (NEODatabase.mk [namelessNeo, emptyNameNeo] []).get_neo_by_name (some "")
      = some emptyNameNeo ∧
    (NEODatabase.mk [namelessNeo, emptyNameNeo] []).name_to_neo none
      ≠ none := by
  refine ⟨rfl, rfl, ?_⟩
  decide

/-- A `dget` lookup succeeds exactly when the key occurs among the keys. -/
theorem dget_isSome_iff {α : Type} (m : List (String × α)) (k : String) :
    (dget m k).isSome = true ↔ k ∈ m.map Prod.fst := by
  induction m with
  | nil => simp [dget]
  | cons e rest ih =>
    obtain ⟨k', v⟩ := e
    by_cases hk : k = k'
    · subst hk
      simp [dget]
    · simp [dget, hk, ih]

/-- An ordering comparison may raise `TypeError` but never `KeyError`. -/
theorem pyLe_ne_unknownKey (v w : PyVal) (k : String) :
    pyLe v w ≠ .error (.unknownKey k) := by
  cases v <;> cases w <;> simp [pyLe, PyVal.asFloat]

/-- Applying a mapping operator never raises `KeyError`. -/
theorem applyOp_ne_unknownKey (op : Op) (v w : PyVal) (k : String) :
    applyOp op v w ≠ .error (.unknownKey k) := by
  cases op with
  | opEq => simp [applyOp]
  | opLe => exact pyLe_ne_unknownKey v w k
  | opGe => exact pyLe_ne_unknownKey w v k

/-- When every requested key is present in the mapping, the filters loop
never raises `KeyError`. -/
theorem runFilters_no_unknownKey (m : List (String × PyVal × Op))
    (l : List (String × Option PyVal))
    (hl : ∀ p ∈ l, (dget m p.1).isSome = true) (k : String) :
    runFilters m l ≠ .error (.unknownKey k) := by
  induction l with
  | nil => simp [runFilters]
  | cons e tl ih =>
    obtain ⟨k', fv⟩ := e
    have h1 : (dget m k').isSome = true := hl (k', fv) (List.mem_cons_self _ _)
    have ih' := ih (fun p hp => hl p (List.mem_cons_of_mem _ hp))
    cases hg : dget m k' with
    | none => simp [hg] at h1
    | some vo =>
      obtain ⟨v, op⟩ := vo
      cases fv with
      | none =>
        cases ht : runFilters m tl with
        | ok bs => simp [runFilters, hg, ht]
        | error e =>
          have hv : runFilters m ((k', none) :: tl) = .error e := by
            simp [runFilters, hg, ht]
          rw [hv]
          rw [ht] at ih'
          exact ih'
      | some fe =>
        cases ha : applyOp op v fe with
        | error e =>
          have hv : runFilters m ((k', some fe) :: tl) = .error e := by
            simp [runFilters, hg, ha]
          rw [hv]
          intro hc
          have h3 := applyOp_ne_unknownKey op v fe k
          rw [ha] at h3
          apply h3
          injection hc with h4
          rw [h4]
        | ok b =>
          cases ht : runFilters m tl with
          | ok bs => simp [runFilters, hg, ha, ht]
          | error e =>
            have hv : runFilters m ((k', some fe) :: tl) = .error e := by
              simp [runFilters, hg, ha, ht]
            rw [hv]
            rw [ht] at ih'
            exact ih'

/-- Appending an entry with an unknown key after a successfully processed
prefix makes the filters loop raise `KeyError` on that key. -/
theorem runFilters_ok_append_unknownKey (m : List (String × PyVal × Op))
    (k : String) (fv : Option PyVal) (rest : List (String × Option PyVal))
    (hk : dget m k = none) :
    ∀ (l : List (String × Option PyVal)) (bs : List Bool),
      runFilters m l = .ok bs →
      runFilters m (l ++ (k, fv) :: rest) = .error (.unknownKey k) := by
  intro l
  induction l with
  | nil =>
    intro bs h
    simp [runFilters, hk]
  | cons e tl ih =>
    obtain ⟨k', fv'⟩ := e
    intro bs h
    cases hg : dget m k' with
    | none =>
      have hv : runFilters m ((k', fv') :: tl) = .error (.unknownKey k') := by
        cases fv' <;> simp [runFilters, hg]
      rw [hv] at h
      cases h
    | some vo =>
      obtain ⟨v, op⟩ := vo
      cases fv' with
      | none =>
        cases ht : runFilters m tl with
        | error e =>
          have hv : runFilters m ((k', none) :: tl) = .error e := by
            simp [runFilters, hg, ht]
          rw [hv] at h
          cases h
        | ok cs =>
          simp [List.cons_append, runFilters, hg, ih cs ht]
      | some fe =>
        cases ha : applyOp op v fe with
        | error e =>
          have hv : runFilters m ((k', some fe) :: tl) = .error e := by
            simp [runFilters, hg, ha]
          rw [hv] at h
          cases h
        | ok b =>
          cases ht : runFilters m tl with
          | error e =>
            have hv : runFilters m ((k', some fe) :: tl) = .error e := by
              simp [runFilters, hg, ha, ht]
            rw [hv] at h
            cases h
          | ok cs =>
            simp [List.cons_append, runFilters, hg, ha, ih cs ht]

/-- Claim C7: a filters mapping whose keys are all canonical never makes
`_check_filters` raise the unknown-key `KeyError` (whatever else happens),
and a non-canonical key reached after a successful prefix raises exactly
the distinct `KeyError` carrying that key. -/
theorem unknown_filter_key_failure :
    (∀ (aneo : Option NearEarthObject) (a : CloseApproach)
        (filters : List (String × Option PyVal)),
        (∀ p ∈ filters, p.1 ∈ canonicalKeys) →
        ∀ k, _check_filters aneo a filters ≠ .error (.unknownKey k)) ∧
    (∀ (n : NearEarthObject) (a : CloseApproach)
        (pre : List (String × Option PyVal)) (bs : List Bool)
        (k : String) (fv : Option PyVal) (rest : List (String × Option PyVal)),
        _check_filters (some n) a pre = .ok bs → k ∉ canonicalKeys →
        _check_filters (some n) a (pre ++ (k, fv) :: rest)
          = .error (.unknownKey k)) := by
  constructor
  · intro aneo a filters hf k
    cases aneo with
    | none => simp [_check_filters]
    | some n =>
      apply runFilters_no_unknownKey
      intro p hp
      rw [dget_isSome_iff]
      have hkeys : (buildMapping a n).map Prod.fst = canonicalKeys := rfl
      rw [hkeys]
      exact hf p hp
  · intro n a pre bs k fv rest hok hk
    simp only [_check_filters] at hok ⊢
    have hknone : dget (buildMapping a n) k = none := by
      rw [← Option.not_isSome_iff_eq_none, dget_isSome_iff]
      have hkeys : (buildMapping a n).map Prod.fst = canonicalKeys := rfl
      rw [hkeys]
      exact hk
    exact runFilters_ok_append_unknownKey (buildMapping a n) k fv rest hknone pre bs hok

/-- Claim C7 (witness): a canonical-key mapping does not raise the
unknown-key failure, and the non-canonical key "designation" does. -/
theorem unknown_filter_key_failure_witness :
    _check_filters (some sampleNeo) sampleApproach [("des", none)]
      ≠ .error (.unknownKey "des") ∧
    _check_filters (some sampleNeo) sampleApproach [("foo", none)]
      = .error (.unknownKey "foo") :=
  ⟨unknown_filter_key_failure.1 (some sampleNeo) sampleApproach [("des", none)]
      (by decide) "des",
   unknown_filter_key_failure.2 sampleNeo sampleApproach [] [] "foo" none []
      rfl (by decide)⟩

/-- Claim C8 (counterexample): the key "designation" is NOT recognized by
`_check_filters`: it raises the unknown-key `KeyError` instead of testing
equality of designations.  The recognized key is "des". -/
theorem designation_key_unrecognized :
    _check_filters (some sampleNeo) sampleApproach
        [("designation", some (.vstr "2020AB"))]
      = .error (.unknownKey "designation") := rfl

/-- Claim C8 (amended): the canonical designation filter key is "des": for
every approach event, a filter with key "des" and a string threshold
evaluates to exact equality of the event's staging designation with the
threshold, rather than being rejected as unknown. -/
theorem des_key_exact_match (n : NearEarthObject) (a : CloseApproach)
    (s : String) :
    _check_filters (some n) a [("des", some (.vstr s))]
      = .ok [(a._designation == s)] := rfl

/-- Claim C9: against an object whose diameter is the NaN sentinel, the
diameter_min and diameter_max filters evaluate, for any finite threshold,
to false without raising. -/
theorem nan_diameter_bound_filters_false (a : CloseApproach)
    (n : NearEarthObject) (q : ℚ) (hn : n.diameter = .nan) :
    _check_filters (some n) a [("diameter_min", some (.vfloat (.val q)))]
        = .ok [false] ∧
    _check_filters (some n) a [("diameter_max", some (.vfloat (.val q)))]
        = .ok [false] := by
  have h1 : _check_filters (some n) a [("diameter_min", some (.vfloat (.val q)))]
      = .ok [PFloat.fle (.val q) n.diameter] := rfl
  have h2 : _check_filters (some n) a [("diameter_max", some (.vfloat (.val q)))]
      = .ok [PFloat.fle n.diameter (.val q)] := rfl
  rw [h1, h2, hn]
  exact ⟨rfl, rfl⟩

/-- Claim C9 (witness): instantiation on a NaN-diameter object with
threshold 5. -/
theorem nan_diameter_bound_filters_false_witness :
    _check_filters (some namelessNeo) sampleApproach
        [("diameter_min", some (.vfloat (.val 5)))] = .ok [false] ∧
    _check_filters (some namelessNeo) sampleApproach
        [("diameter_max", some (.vfloat (.val 5)))] = .ok [false] :=
  nan_diameter_bound_filters_false sampleApproach namelessNeo 5 rfl

/-- Claim C10: the mapping of `_check_filters` is built eagerly with all
twelve extractors (its key list is exactly `canonicalKeys`, including the
three that dereference `approach.neo`), so whenever the back-reference is
unset the call fails with `AttributeError` for every filters argument,
object-independent keys such as distance_max included. -/
theorem check_filters_eager_mapping :
    (∀ (a : CloseApproach) (filters : List (String × Option PyVal)),
        _check_filters none a filters = .error .attrError) ∧
    (∀ (a : CloseApproach) (n : NearEarthObject),
        (buildMapping a n).map Prod.fst = canonicalKeys) :=
  ⟨fun _ _ => rfl, fun _ _ => rfl⟩
